import Mathlib

/-!
Verification of `src/assets/scripts/main.js` (recipe loader page).

The JavaScript is shallowly embedded as pure Lean functions:

* JSON values are the inductive `Json`; `JSON.parse` and `JSON.stringify`
  are browser primitives, not repository code, so they appear as abstract
  fields `parse`/`stringify` of the environment `Env`, and theorems that
  depend on their round-trip behaviour take that behaviour as a hypothesis.
* `localStorage` is an association list `Storage` with `getItem`/`setItem`.
* Each of the six `fetch(url)` / `body.json()` pipelines is summarised by a
  `FetchOutcome` (the fetch rejects, the body parse rejects, or a `Json`
  record is produced).  The promise in `getRecipes` settles according to
  the order in which those six pipelines complete; that completion order is
  the `completionOrder` field of `Env` (a permutation of the six indices).
* The DOM container `<main>` is a list of `RecipeCard` elements.
-/

namespace Lab7

/-- JSON values (numbers restricted to integers; no claim depends on
    fractional numbers). -/
inductive Json where
  | null : Json
  | bool (b : Bool) : Json
  | num (n : Int) : Json
  | str (s : String) : Json
  | arr (elems : List Json) : Json
  | obj (fields : List (String × Json)) : Json

/-- A `<recipe-card>` element: the script only ever assigns its `data`
    property. -/
structure RecipeCard where
  data : Json

/-- `localStorage`: a string-keyed map of strings. -/
abbrev Storage := List (String × String)

/-- `localStorage.getItem(k)`; `none` models the JS `null` for an absent
    key. -/
def getItem : Storage → String → Option String
  | [], _ => none
  | (k', v) :: t, k => if k' = k then some v else getItem t k

/-- `localStorage.setItem(k, v)`: replaces the value when the key is
    present, appends it otherwise. -/
def setItem : Storage → String → String → Storage
  | [], k, v => [(k, v)]
  | (k', v') :: t, k, v =>
    if k' = k then (k, v) :: t else (k', v') :: setItem t k v

/-- The storage key used by the script. -/
def recipesKey : String := "recipes"

/-- The constant `RECIPE_URLS` from main.js. -/
def RECIPE_URLS : List String :=
  [ "https://introweb.tech/assets/json/1_50-thanksgiving-side-dishes.json"
  , "https://introweb.tech/assets/json/2_roasting-turkey-breast-with-stuffing.json"
  , "https://introweb.tech/assets/json/3_moms-cornbread-stuffing.json"
  , "https://introweb.tech/assets/json/4_50-indulgent-thanksgiving-side-dishes-for-any-holiday-gathering.json"
  , "https://introweb.tech/assets/json/5_healthy-thanksgiving-recipe-crockpot-turkey-breast.json"
  , "https://introweb.tech/assets/json/6_one-pot-thanksgiving-dinner.json" ]

/-- Number of configured sources (six). -/
def numUrls : Nat := RECIPE_URLS.length

/-- The URL at position `i` of `RECIPE_URLS`. -/
def urlAt (i : Nat) : String := RECIPE_URLS.getD i ""

/-- Summary of one `fetch(url)` / `body.json()` pipeline: the fetch
    promise rejects, the body-parse promise rejects, or a JSON record is
    produced. -/
inductive FetchOutcome where
  | fetchErr : FetchOutcome
  | jsonErr : FetchOutcome
  | ok (j : Json) : FetchOutcome

/-- Whether the pipeline produced a record. -/
def FetchOutcome.isOk : FetchOutcome → Bool
  | .ok _ => true
  | _ => false

/-- The world the script runs against: the storage state, the platform
    JSON codec, the network (outcome per URL), the order in which the six
    fetch pipelines complete, and service-worker support. -/
structure Env where
  storage : Storage
  parse : String → Option Json
  stringify : Json → String
  fetchResult : String → FetchOutcome
  completionOrder : List Nat
  hasServiceWorker : Bool

/-- `saveRecipesToStorage(recipes)`:
    `localStorage.setItem('recipes', JSON.stringify(recipes))`. -/
def saveRecipesToStorage (stringify : Json → String) (recipes : List Json)
    (st : Storage) : Storage :=
  setItem st recipesKey (stringify (Json.arr recipes))

/-- State of the manually-created promise in `getRecipes` while the six
    fetch pipelines complete: the `recipes` array pushed so far, the
    `finished` counter, whether the promise has settled (first
    resolve/reject wins; an error is identified by the index of the
    failing source), and the storage state. -/
structure LoadState where
  recipes : List Json
  finished : Nat
  settled : Option (Except Nat Json)
  storage : Storage

/-- One completion event of the pipeline for source index `i`:
    on success, push the record and bump `finished`; once
    `finished >= RECIPE_URLS.length`, call `saveRecipesToStorage` and
    resolve with the array.  On a fetch or body-parse rejection, the `err`
    callback rejects the promise (a settled promise ignores further
    resolve/reject calls). -/
def step (env : Env) (st : LoadState) (i : Nat) : LoadState :=
  match env.fetchResult (urlAt i) with
  | .ok j =>
    let recipes := st.recipes ++ [j]
    let finished := st.finished + 1
    if numUrls ≤ finished then
      { recipes := recipes
        finished := finished
        settled :=
          match st.settled with
          | some v => some v
          | none => some (Except.ok (Json.arr recipes))
        storage := saveRecipesToStorage env.stringify recipes st.storage }
    else
      { st with recipes := recipes, finished := finished }
  | _ =>
    { st with
      settled :=
        match st.settled with
        | some v => some v
        | none => some (Except.error i) }

/-- The network half of `getRecipes`: all six fetches are issued, then the
    promise state evolves by the pipelines' completion order.  Returns the
    promise result (`none` = the promise never settles, e.g. a hung
    request), the final storage, and the number of network requests
    issued. -/
def loadFromNetwork (env : Env) : Option (Except Nat Json) × Storage × Nat :=
  let final := env.completionOrder.foldl (step env) ⟨[], 0, none, env.storage⟩
  (final.settled, final.storage, numUrls)

/-- `getRecipes()`: read `localStorage.getItem("recipes")`; if the value
    is truthy (present and nonempty), return `JSON.parse` of it, or `[]`
    when the parse throws; otherwise fall through to the network load.
    Result components: promise result, final storage, number of network
    requests issued. -/
def getRecipes (env : Env) : Option (Except Nat Json) × Storage × Nat :=
  match getItem env.storage recipesKey with
  | some s =>
    if s = "" then loadFromNetwork env
    else
      match env.parse s with
      | some j => (some (Except.ok j), env.storage, 0)
      | none => (some (Except.ok (Json.arr [])), env.storage, 0)
  | none => loadFromNetwork env

/-- JavaScript truthiness of the `recipes` argument of
    `addRecipesToDocument` (`none` = `undefined`). -/
def jsTruthy : Option Json → Bool
  | none => false
  | some Json.null => false
  | some (Json.bool b) => b
  | some (Json.num n) => n != 0
  | some (Json.str s) => s != ""
  | some (Json.arr _) => true
  | some (Json.obj _) => true

/-- `addRecipesToDocument(recipes)`: if `recipes` is falsy, return without
    touching the page; otherwise, for each recipe in order, create a
    `<recipe-card>`, assign the recipe to its `data`, and append it to
    `<main>`.  `none` in the result models the `TypeError` thrown by
    `recipes.forEach` when a truthy non-array reaches it. -/
def addRecipesToDocument (recipes : Option Json) (main : List RecipeCard) :
    Option (List RecipeCard) :=
  if jsTruthy recipes = false then some main
  else
    match recipes with
    | some (Json.arr l) => some (main ++ l.map RecipeCard.mk)
    | _ => none

/-- Observable actions of the service-worker registrar. -/
inductive SWEffect where
  | addLoadListener : SWEffect
  | register (path : String) : SWEffect
  | log (msg : String) : SWEffect
  | logError (msg : String) : SWEffect

/-- `initializeServiceWorker()`: if `navigator` lacks a `serviceWorker`
    capability, return immediately; otherwise install a `load`-event
    listener (registration itself happens only when that event later
    fires). -/
def initializeServiceWorker (hasSW : Bool) : List SWEffect :=
  if hasSW = false then [] else [SWEffect.addLoadListener]

/-- A service-worker registration object: which of its lifecycle fields
    are non-null. -/
structure SWRegistration where
  installing : Bool
  waiting : Bool
  active : Bool

/-- The log produced from a registration object by the `then` branch of
    the listener. -/
def swRegistrationLogs (r : SWRegistration) : List SWEffect :=
  if r.installing then [SWEffect.log ("Service worker installing")]
  else if r.waiting then [SWEffect.log ("Service worker installed")]
  else if r.active then [SWEffect.log ("Service worker active")]
  else []

/-- What happens when the page's `load` event fires: nothing when no
    listener was installed; otherwise `navigator.serviceWorker.register`
    runs and its outcome is logged (failure is logged and swallowed). -/
def swOnLoad (hasSW : Bool) (regResult : Except String SWRegistration) :
    List SWEffect :=
  if hasSW = false then []
  else
    SWEffect.register ("./sw.js") ::
      match regResult with
      | Except.ok r => swRegistrationLogs r
      | Except.error e =>
          [SWEffect.logError ("Service worker registration failed: " ++ e)]

/-- What a completed run of `init()` did: the registrar's actions, whether
    the `catch` block logged an error, whether and with what argument the
    renderer was called, the `<main>` children afterwards (`none` = the
    render threw), the storage afterwards, and how many network requests
    were issued. -/
structure InitResult where
  swEffects : List SWEffect
  loggedError : Bool
  renderCalled : Bool
  renderedWith : Option Json
  mainAfter : Option (List RecipeCard)
  storageAfter : Storage
  requests : Nat

/-- `init()`: run the registrar, `await getRecipes()` inside `try`/`catch`
    (on rejection the error is logged and `recipes` stays `undefined`),
    then call `addRecipesToDocument(recipes)`.  `none` models an
    `init` that never completes because the promise never settles. -/
def init (env : Env) (main0 : List RecipeCard) : Option InitResult :=
  match getRecipes env with
  | (none, _, _) => none
  | (some (Except.ok j), st, n) =>
    some
      { swEffects := initializeServiceWorker env.hasServiceWorker
        loggedError := false
        renderCalled := true
        renderedWith := some j
        mainAfter := addRecipesToDocument (some j) main0
        storageAfter := st
        requests := n }
  | (some (Except.error _), st, n) =>
    some
      { swEffects := initializeServiceWorker env.hasServiceWorker
        loggedError := true
        renderCalled := true
        renderedWith := none
        mainAfter := addRecipesToDocument none main0
        storageAfter := st
        requests := n }

/-- The service-worker-independent part of an `InitResult`. -/
def initCore (r : InitResult) :
    Bool × Bool × Option Json × Option (List RecipeCard) × Storage × Nat :=
  (r.loggedError, r.renderCalled, r.renderedWith, r.mainAfter,
    r.storageAfter, r.requests)

/-! ### Storage lemmas -/

theorem getItem_setItem (st : Storage) (k v : String) :
    getItem (setItem st k v) k = some v := by
  induction st with
  | nil => simp [setItem, getItem]
  | cons p t ih =>
    obtain ⟨k', v'⟩ := p
    by_cases h : k' = k
    · simp [setItem, getItem, h]
    · simp [setItem, getItem, h, ih]

/-- A truthy cache entry that parses routes `getRecipes` to the cache
path: the parsed value is returned, storage is untouched, no request is
issued. -/
theorem cacheHit_eq (env : Env) (s : String) (j : Json)
    (hs : getItem env.storage recipesKey = some s) (hne : s ≠ "")
    (hp : env.parse s = some j) :
    getRecipes env = (some (Except.ok j), env.storage, 0) := by
  simp [getRecipes, hs, hne, hp]

/-! ### C1: cache hit idempotence -/

/-- C1: if the store holds, under the key "recipes", a string `s` that is
the JSON serialization of a valid Recipe Collection `C` (so `s` is
nonempty and parses back to `C`), then `getRecipes()` returns exactly `C`,
leaves storage unchanged, and issues zero network requests. -/
theorem getRecipes_cacheHit (env : Env) (s : String) (C : List Json)
    (hs : getItem env.storage recipesKey = some s) (hne : s ≠ "")
    (hp : env.parse s = some (Json.arr C)) :
    getRecipes env = (some (Except.ok (Json.arr C)), env.storage, 0) :=
  cacheHit_eq env s (Json.arr C) hs hne hp

def envC1 : Env :=
  { storage := [(recipesKey, "[]")]
    parse := fun s => if s = "[]" then some (Json.arr []) else none
    stringify := fun _ => ""
    fetchResult := fun _ => FetchOutcome.fetchErr
    completionOrder := [0, 1, 2, 3, 4, 5]
    hasServiceWorker := false }

/-- Witness for C1 at a concrete environment whose cache entry is the
serialized empty collection. -/
theorem getRecipes_cacheHit_witness :
    getRecipes envC1 = (some (Except.ok (Json.arr [])), envC1.storage, 0) :=
  getRecipes_cacheHit envC1 ("[]") [] rfl (by decide) rfl

/-! ### C4: corrupt cache -/

def envC4 : Env :=
  { storage := [(recipesKey, "")]
    parse := fun _ => none
    stringify := fun _ => ""
    fetchResult := fun _ => FetchOutcome.fetchErr
    completionOrder := [0, 1, 2, 3, 4, 5]
    hasServiceWorker := false }

/-- C4 counterexample: the empty string is a string under the key
"recipes" that is not parseable as JSON, yet `getRecipes()` issues the six
network requests rather than zero — the truthiness check routes it to the
network path before any parse is attempted. -/
theorem getRecipes_corruptCache_counterexample :
    getItem envC4.storage recipesKey = some "" ∧
    envC4.parse "" = none ∧
    (getRecipes envC4).2.2 = numUrls ∧ numUrls ≠ 0 :=
  ⟨rfl, rfl, rfl, by decide⟩

/-- C4 amended: for every **nonempty** string `s` under the key "recipes"
that is not parseable as JSON, `getRecipes()` returns an empty collection
and issues zero network requests (it does not fall through to network
loading). -/
theorem getRecipes_corruptCache (env : Env) (s : String)
    (hs : getItem env.storage recipesKey = some s) (hne : s ≠ "")
    (hp : env.parse s = none) :
    getRecipes env = (some (Except.ok (Json.arr [])), env.storage, 0) := by
  simp [getRecipes, hs, hne, hp]

def envC4' : Env :=
  { storage := [(recipesKey, "junk")]
    parse := fun _ => none
    stringify := fun _ => ""
    fetchResult := fun _ => FetchOutcome.fetchErr
    completionOrder := [0, 1, 2, 3, 4, 5]
    hasServiceWorker := false }

/-- Witness for the amended C4 at a concrete corrupt nonempty cache. -/
theorem getRecipes_corruptCache_witness :
    getRecipes envC4' = (some (Except.ok (Json.arr [])), envC4'.storage, 0) :=
  getRecipes_corruptCache envC4' ("junk") rfl (by decide) rfl

/-! ### Promise-state lemmas for the network path -/

/-- Number of sources in `l` whose fetch pipeline succeeds. -/
def countOk (env : Env) (l : List Nat) : Nat :=
  l.countP (fun i => (env.fetchResult (urlAt i)).isOk)

/-- While fewer successes than sources have been seen, processing more
completion events never writes storage, and `finished` counts exactly the
successful events. -/
theorem foldl_step_below (env : Env) :
    ∀ (l : List Nat) (st : LoadState),
      st.finished + countOk env l < numUrls →
      (l.foldl (step env) st).storage = st.storage ∧
      (l.foldl (step env) st).finished = st.finished + countOk env l := by
  intro l
  induction l with
  | nil =>
    intro st _
    simp [countOk]
  | cons i t ih =>
    intro st hlt
    rcases hout : env.fetchResult (urlAt i) with _ | _ | j
    case fetchErr =>
      have hcount : countOk env (i :: t) = countOk env t := by
        simp [countOk, List.countP_cons, hout, FetchOutcome.isOk]
      rw [hcount] at hlt
      have hstep : step env st i =
          { st with
            settled :=
              match st.settled with
              | some v => some v
              | none => some (Except.error i) } := by
        simp [step, hout]
      have := ih { st with
            settled :=
              match st.settled with
              | some v => some v
              | none => some (Except.error i) } hlt
      simpa [List.foldl_cons, hstep, hcount] using this
    case jsonErr =>
      have hcount : countOk env (i :: t) = countOk env t := by
        simp [countOk, List.countP_cons, hout, FetchOutcome.isOk]
      rw [hcount] at hlt
      have hstep : step env st i =
          { st with
            settled :=
              match st.settled with
              | some v => some v
              | none => some (Except.error i) } := by
        simp [step, hout]
      have := ih { st with
            settled :=
              match st.settled with
              | some v => some v
              | none => some (Except.error i) } hlt
      simpa [List.foldl_cons, hstep, hcount] using this
    case ok =>
      have hcount : countOk env (i :: t) = countOk env t + 1 := by
        simp [countOk, List.countP_cons, hout, FetchOutcome.isOk]
      rw [hcount] at hlt
      have hnot : ¬ numUrls ≤ st.finished + 1 := by omega
      have hstep : step env st i =
          { st with recipes := st.recipes ++ [j],
                    finished := st.finished + 1 } := by
        simp [step, hout, hnot]
      have hlt' :
          ({ st with recipes := st.recipes ++ [j],
                     finished := st.finished + 1 } :
            LoadState).finished + countOk env t < numUrls := by
        simp
        omega
      have := ih { st with recipes := st.recipes ++ [j],
                           finished := st.finished + 1 } hlt'
      rw [List.foldl_cons, hstep]
      refine ⟨this.1, ?_⟩
      rw [this.2]
      simp
      omega

/-- While fewer successes than sources have been seen, a promise that is
unsettled or already rejected, together with at least one failing event
(or an already-recorded rejection), ends rejected. -/
theorem foldl_step_rejects (env : Env) :
    ∀ (l : List Nat) (st : LoadState),
      st.finished + countOk env l < numUrls →
      (st.settled = none ∨ ∃ e, st.settled = some (Except.error e)) →
      ((∃ i ∈ l, (env.fetchResult (urlAt i)).isOk = false) ∨
        ∃ e, st.settled = some (Except.error e)) →
      ∃ e, (l.foldl (step env) st).settled = some (Except.error e) := by
  intro l
  induction l with
  | nil =>
    intro st _ _ hfail
    rcases hfail with ⟨i, hi, _⟩ | he
    · exact absurd hi (List.not_mem_nil i)
    · simpa using he
  | cons i t ih =>
    intro st hlt hsettled hfail
    rcases hout : env.fetchResult (urlAt i) with _ | _ | j
    case ok =>
      have hcount : countOk env (i :: t) = countOk env t + 1 := by
        simp [countOk, List.countP_cons, hout, FetchOutcome.isOk]
      rw [hcount] at hlt
      have hnot : ¬ numUrls ≤ st.finished + 1 := by omega
      have hstep : step env st i =
          { st with recipes := st.recipes ++ [j],
                    finished := st.finished + 1 } := by
        simp [step, hout, hnot]
      rw [List.foldl_cons, hstep]
      refine ih _ (by simp; omega) (by simpa using hsettled) ?_
      rcases hfail with ⟨i', hi', hfi⟩ | he
      · rcases List.mem_cons.mp hi' with h | h
        · subst h
          rw [hout] at hfi
          simp [FetchOutcome.isOk] at hfi
        · exact Or.inl ⟨i', h, hfi⟩
      · exact Or.inr (by simpa using he)
    all_goals {
      have hcount : countOk env (i :: t) = countOk env t := by
        simp [countOk, List.countP_cons, hout, FetchOutcome.isOk]
      rw [hcount] at hlt
      have hstep : step env st i =
          { st with
            settled :=
              match st.settled with
              | some v => some v
              | none => some (Except.error i) } := by
        simp [step, hout]
      have hrej : ∃ e,
          (match st.settled with
            | some v => some v
            | none => some (Except.error i)) = some (Except.error e) := by
        rcases hsettled with h | ⟨e, h⟩
        · exact ⟨i, by rw [h]⟩
        · exact ⟨e, by rw [h]⟩
      rw [List.foldl_cons, hstep]
      exact ih _ (by simpa using hlt) (Or.inr (by simpa using hrej))
        (Or.inr (by simpa using hrej))
    }

/-! ### C2: all-or-nothing load -/

/-- C2: starting with the "recipes" key absent, if any one of the six
fetch pipelines fails, then `getRecipes()` rejects overall, the storage
state is unchanged, and the "recipes" key remains absent — no partial
collection is ever written. -/
theorem getRecipes_allOrNothing (env : Env)
    (hmiss : getItem env.storage recipesKey = none)
    (hperm : env.completionOrder.Perm (List.range numUrls))
    (hfail : ∃ i, i < numUrls ∧ (env.fetchResult (urlAt i)).isOk = false) :
    (∃ e, (getRecipes env).1 = some (Except.error e)) ∧
    (getRecipes env).2.1 = env.storage ∧
    getItem (getRecipes env).2.1 recipesKey = none := by
  obtain ⟨i, hi, hno⟩ := hfail
  have hnet : getRecipes env = loadFromNetwork env := by
    simp [getRecipes, hmiss]
  have hcnt : countOk env env.completionOrder = countOk env (List.range numUrls) :=
    hperm.countP_eq _
  have hlt : countOk env (List.range numUrls) < numUrls := by
    have hle : List.countP (fun k => (env.fetchResult (urlAt k)).isOk)
        (List.range numUrls) ≤ (List.range numUrls).length :=
      List.countP_le_length _
    have hne2 : List.countP (fun k => (env.fetchResult (urlAt k)).isOk)
        (List.range numUrls) ≠ (List.range numUrls).length := by
      intro heq
      have hall := List.countP_eq_length.mp heq
      have hthis := hall i (List.mem_range.mpr hi)
      simp only [hno] at hthis
      exact Bool.false_ne_true hthis
    have h3 := Nat.lt_of_le_of_ne hle hne2
    simpa [countOk] using h3
  have hmem : i ∈ env.completionOrder :=
    (hperm.mem_iff).mpr (List.mem_range.mpr hi)
  have hlt0 :
      (⟨[], 0, none, env.storage⟩ : LoadState).finished +
        countOk env env.completionOrder < numUrls := by
    simpa [hcnt] using hlt
  have hbelow := foldl_step_below env env.completionOrder
    ⟨[], 0, none, env.storage⟩ hlt0
  have hrej := foldl_step_rejects env env.completionOrder
    ⟨[], 0, none, env.storage⟩ hlt0 (Or.inl rfl)
    (Or.inl ⟨i, hmem, hno⟩)
  rw [hnet]
  refine ⟨by simpa [loadFromNetwork] using hrej, ?_, ?_⟩
  · simpa [loadFromNetwork] using hbelow.1
  · have : (loadFromNetwork env).2.1 = env.storage := by
      simpa [loadFromNetwork] using hbelow.1
    rw [this, hmiss]

def envC2 : Env :=
  { storage := []
    parse := fun _ => none
    stringify := fun _ => ""
    fetchResult := fun _ => FetchOutcome.fetchErr
    completionOrder := [0, 1, 2, 3, 4, 5]
    hasServiceWorker := false }

/-- Witness for C2 at a concrete environment with an empty store and all
six pipelines failing. -/
theorem getRecipes_allOrNothing_witness :
    (∃ e, (getRecipes envC2).1 = some (Except.error e)) ∧
    (getRecipes envC2).2.1 = envC2.storage ∧
    getItem (getRecipes envC2).2.1 recipesKey = none :=
  getRecipes_allOrNothing envC2 rfl (by decide) ⟨0, by decide, rfl⟩

/-- Processing a nonempty run of all-successful completion events, from an
unsettled state whose `finished` counter will exactly exhaust the sources:
the records are pushed in completion order, the collection is saved to
storage, and the promise resolves with it. -/
theorem foldl_step_all_ok (env : Env) (r : Nat → Json) :
    ∀ (l : List Nat) (st : LoadState), l ≠ [] →
      (∀ i ∈ l, env.fetchResult (urlAt i) = FetchOutcome.ok (r i)) →
      st.settled = none →
      st.finished + l.length = numUrls →
      l.foldl (step env) st =
        { recipes := st.recipes ++ l.map r
          finished := numUrls
          settled := some (Except.ok (Json.arr (st.recipes ++ l.map r)))
          storage := saveRecipesToStorage env.stringify
            (st.recipes ++ l.map r) st.storage } := by
  intro l
  induction l with
  | nil =>
    intro st hne
    exact absurd rfl hne
  | cons i t ih =>
    intro st _ hok hset hlen
    have hout : env.fetchResult (urlAt i) = FetchOutcome.ok (r i) :=
      hok i (List.mem_cons_self i t)
    cases t with
    | nil =>
      have hfin : numUrls ≤ st.finished + 1 := by
        simp at hlen
        omega
      have hfin2 : st.finished + 1 = numUrls := by
        simp at hlen
        omega
      simp [List.foldl_cons, step, hout, hfin, hset, hfin2]
    | cons i' t' =>
      have hnot : ¬ numUrls ≤ st.finished + 1 := by
        simp at hlen
        omega
      have hstep : step env st i =
          { st with recipes := st.recipes ++ [r i],
                    finished := st.finished + 1 } := by
        simp [step, hout, hnot]
      have hih := ih { st with recipes := st.recipes ++ [r i],
                               finished := st.finished + 1 }
        (by simp) (fun k hk => hok k (List.mem_cons_of_mem i hk)) (by simpa using hset)
        (by simp at hlen ⊢; omega)
      rw [List.foldl_cons, hstep, hih]
      simp

/-! ### C3: cache miss populates cache -/

/-- C3: with the "recipes" key absent and all six fetch pipelines
succeeding with records `r 0 .. r 5`, `getRecipes()` resolves with the
records in completion order (a permutation of the six records), writes
their serialization under "recipes", and a subsequent `getRecipes()` call
on the resulting store returns that same stored collection with zero
additional network requests.  (The last two hypotheses record that JSON
serialization of a collection is a nonempty string that parses back to
the collection.) -/
theorem getRecipes_cacheMiss (env : Env) (r : Nat → Json)
    (hmiss : getItem env.storage recipesKey = none)
    (hperm : env.completionOrder.Perm (List.range numUrls))
    (hok : ∀ i, i < numUrls →
      env.fetchResult (urlAt i) = FetchOutcome.ok (r i))
    (hrt : env.parse (env.stringify (Json.arr (env.completionOrder.map r))) =
      some (Json.arr (env.completionOrder.map r)))
    (hsne : env.stringify (Json.arr (env.completionOrder.map r)) ≠ "") :
    getRecipes env =
      (some (Except.ok (Json.arr (env.completionOrder.map r))),
        saveRecipesToStorage env.stringify (env.completionOrder.map r)
          env.storage,
        numUrls) ∧
    (env.completionOrder.map r).Perm ((List.range numUrls).map r) ∧
    getItem
      (saveRecipesToStorage env.stringify (env.completionOrder.map r)
        env.storage) recipesKey =
      some (env.stringify (Json.arr (env.completionOrder.map r))) ∧
    getRecipes
      { env with
        storage := saveRecipesToStorage env.stringify
          (env.completionOrder.map r) env.storage } =
      (some (Except.ok (Json.arr (env.completionOrder.map r))),
        saveRecipesToStorage env.stringify (env.completionOrder.map r)
          env.storage,
        0) := by
  have hsix : numUrls = 6 := rfl
  have hlen : env.completionOrder.length = numUrls := by
    rw [hperm.length_eq, List.length_range]
  have hnil : env.completionOrder ≠ [] := by
    intro h
    rw [h] at hlen
    simp [hsix] at hlen
  have hok' : ∀ i ∈ env.completionOrder,
      env.fetchResult (urlAt i) = FetchOutcome.ok (r i) := by
    intro i hi
    exact hok i (List.mem_range.mp (hperm.subset hi))
  have hfold := foldl_step_all_ok env r env.completionOrder
    ⟨[], 0, none, env.storage⟩ hnil hok' rfl (by simpa using hlen)
  have hnet : getRecipes env = loadFromNetwork env := by
    simp [getRecipes, hmiss]
  have hload : loadFromNetwork env =
      (some (Except.ok (Json.arr (env.completionOrder.map r))),
        saveRecipesToStorage env.stringify (env.completionOrder.map r)
          env.storage,
        numUrls) := by
    simp [loadFromNetwork, hfold]
  have hstored := getItem_setItem env.storage recipesKey
    (env.stringify (Json.arr (env.completionOrder.map r)))
  refine ⟨hnet.trans hload, hperm.map r, ?_, ?_⟩
  · simpa [saveRecipesToStorage] using hstored
  · exact cacheHit_eq _ _ _ (by simpa [saveRecipesToStorage] using hstored)
      hsne hrt

/-- The record delivered by the pipeline of source `i` in the C3
witness environment: the source URL itself, as a JSON string. -/
def rC3 : Nat → Json := fun i => Json.str (urlAt i)

def envC3 : Env :=
  { storage := []
    parse := fun _ => some (Json.arr (List.map rC3 [0, 1, 2, 3, 4, 5]))
    stringify := fun _ => "S"
    fetchResult := fun u => FetchOutcome.ok (Json.str u)
    completionOrder := [0, 1, 2, 3, 4, 5]
    hasServiceWorker := false }

/-- Witness for C3 at a concrete environment with an empty store and six
succeeding pipelines. -/
theorem getRecipes_cacheMiss_witness :
    getRecipes envC3 =
      (some (Except.ok (Json.arr (envC3.completionOrder.map rC3))),
        saveRecipesToStorage envC3.stringify (envC3.completionOrder.map rC3)
          envC3.storage,
        numUrls) ∧
    (envC3.completionOrder.map rC3).Perm ((List.range numUrls).map rC3) ∧
    getItem
      (saveRecipesToStorage envC3.stringify (envC3.completionOrder.map rC3)
        envC3.storage) recipesKey =
      some (envC3.stringify (Json.arr (envC3.completionOrder.map rC3))) ∧
    getRecipes
      { envC3 with
        storage := saveRecipesToStorage envC3.stringify
          (envC3.completionOrder.map rC3) envC3.storage } =
      (some (Except.ok (Json.arr (envC3.completionOrder.map rC3))),
        saveRecipesToStorage envC3.stringify (envC3.completionOrder.map rC3)
          envC3.storage,
        0) :=
  getRecipes_cacheMiss envC3 rC3 rfl
    (by rw [show List.range numUrls = [0, 1, 2, 3, 4, 5] from rfl]
        exact List.Perm.refl _)
    (fun i _ => rfl) rfl (by decide)

/-! ### C10: save-then-load round trip -/

/-- C10: for every collection `r` whose JSON serialization parses back to
`r` (and is, as every serialization, nonempty), calling
`saveRecipesToStorage(r)` and then `getRecipes()` returns `r`, leaves the
saved entry in place, and issues zero network requests. -/
theorem saveThenGetRecipes (env : Env) (r : List Json)
    (hrt : env.parse (env.stringify (Json.arr r)) = some (Json.arr r))
    (hsne : env.stringify (Json.arr r) ≠ "") :
    getRecipes
      { env with
        storage := saveRecipesToStorage env.stringify r env.storage } =
      (some (Except.ok (Json.arr r)),
        saveRecipesToStorage env.stringify r env.storage, 0) :=
  cacheHit_eq _ _ _
    (by simpa [saveRecipesToStorage] using
      getItem_setItem env.storage recipesKey (env.stringify (Json.arr r)))
    hsne hrt

def envC10 : Env :=
  { storage := []
    parse := fun _ => some (Json.arr [Json.null])
    stringify := fun _ => "S"
    fetchResult := fun _ => FetchOutcome.fetchErr
    completionOrder := [0, 1, 2, 3, 4, 5]
    hasServiceWorker := false }

/-- Witness for C10 at a concrete one-record collection. -/
theorem saveThenGetRecipes_witness :
    getRecipes
      { envC10 with
        storage := saveRecipesToStorage envC10.stringify [Json.null]
          envC10.storage } =
      (some (Except.ok (Json.arr [Json.null])),
        saveRecipesToStorage envC10.stringify [Json.null] envC10.storage,
        0) :=
  saveThenGetRecipes envC10 [Json.null] rfl (by decide)

/-! ### C7: render nothing is a no-op -/

/-- C7: calling `addRecipesToDocument` with no collection performs no
action: the container's children are unchanged and nothing is thrown. -/
theorem addRecipesToDocument_none (main : List RecipeCard) :
    addRecipesToDocument none main = some main := rfl

/-! ### C9: empty string under "recipes" is a cache miss -/

/-- C9: if the store holds the empty string under the key "recipes",
`getRecipes()` treats this as a cache miss: it takes the network path and
issues the six network requests, because the presence check is truthiness
of the stored string. -/
theorem getRecipes_emptyString (env : Env)
    (hs : getItem env.storage recipesKey = some "") :
    getRecipes env = loadFromNetwork env ∧
    (getRecipes env).2.2 = numUrls := by
  have h : getRecipes env = loadFromNetwork env := by
    unfold getRecipes
    rw [hs]
    simp
  exact ⟨h, by rw [h]; rfl⟩

def envC9 : Env :=
  { storage := [(recipesKey, "")]
    parse := fun _ => none
    stringify := fun _ => ""
    fetchResult := fun _ => FetchOutcome.ok Json.null
    completionOrder := [0, 1, 2, 3, 4, 5]
    hasServiceWorker := false }

/-- Witness for C9 at a concrete store holding the empty string. -/
theorem getRecipes_emptyString_witness :
    getRecipes envC9 = loadFromNetwork envC9 ∧
    (getRecipes envC9).2.2 = numUrls :=
  getRecipes_emptyString envC9 rfl

/-! ### C5: top-level failure containment -/

/-- C5: whenever `getRecipes()` rejects, `init()` catches the failure,
logs it, and still calls the renderer with the absent value, so no element
is appended: the page's `<main>` children are unchanged and nothing
user-visible is produced beyond the log. -/
theorem init_containsFailure (env : Env) (main0 : List RecipeCard) (e : Nat)
    (h : (getRecipes env).1 = some (Except.error e)) :
    init env main0 =
      some
        { swEffects := initializeServiceWorker env.hasServiceWorker
          loggedError := true
          renderCalled := true
          renderedWith := none
          mainAfter := some main0
          storageAfter := (getRecipes env).2.1
          requests := (getRecipes env).2.2 } := by
  rcases hge : getRecipes env with ⟨res, st, n⟩
  rw [hge] at h
  simp only at h
  subst h
  unfold init
  rw [hge]
  rfl

def envC5 : Env :=
  { storage := []
    parse := fun _ => none
    stringify := fun _ => ""
    fetchResult := fun _ => FetchOutcome.fetchErr
    completionOrder := [0, 1, 2, 3, 4, 5]
    hasServiceWorker := false }

/-- Witness for C5 at a concrete failing environment. -/
theorem init_containsFailure_witness :
    init envC5 [] =
      some
        { swEffects := initializeServiceWorker envC5.hasServiceWorker
          loggedError := true
          renderCalled := true
          renderedWith := none
          mainAfter := some []
          storageAfter := (getRecipes envC5).2.1
          requests := (getRecipes envC5).2.2 } :=
  init_containsFailure envC5 [] 0 rfl

/-! ### C6: render order -/

/-- C6: for every collection `l`, `addRecipesToDocument` appends exactly
`l.length` display elements to the `<main>` container, in collection
order, the element at offset `i` carrying `l[i]` as its `data`. -/
theorem addRecipesToDocument_order (l : List Json) (main0 : List RecipeCard) :
    addRecipesToDocument (some (Json.arr l)) main0 =
      some (main0 ++ l.map RecipeCard.mk) ∧
    (main0 ++ l.map RecipeCard.mk).length = main0.length + l.length ∧
    ∀ i : Nat,
      (main0 ++ l.map RecipeCard.mk)[main0.length + i]? =
        (l[i]?).map RecipeCard.mk := by
  refine ⟨rfl, by simp, ?_⟩
  intro i
  rw [List.getElem?_append_right (by omega)]
  simp

/-! ### C8: worker registrar guard and decoupling -/

/-- `getRecipes` does not depend on service-worker support. -/
theorem getRecipes_sw_independent (env : Env) (b : Bool) :
    getRecipes { env with hasServiceWorker := b } = getRecipes env := rfl

/-- C8: without a `serviceWorker` capability, `initializeServiceWorker()`
installs no load-event listener, and the later load event triggers no
registration and no logging; moreover the registrar flag has no effect on
the rest of `init()` — recipe loading and rendering are unchanged. -/
theorem initializeServiceWorker_guard :
    initializeServiceWorker false = [] ∧
    (∀ reg, swOnLoad false reg = []) ∧
    ∀ (env : Env) (b : Bool) (main0 : List RecipeCard),
      (init { env with hasServiceWorker := b } main0).map initCore =
        (init env main0).map initCore := by
  refine ⟨rfl, fun reg => rfl, ?_⟩
  intro env b main0
  unfold init
  rw [getRecipes_sw_independent]
  rcases hge : getRecipes env with ⟨res, st, n⟩
  rcases res with _ | res
  · rfl
  · rcases res with e | j <;> rfl

end Lab7
